import Mathlib

/-!
# Verification of the financyou economic scenario generator

Shallow embedding of the scenario-generation pipeline of the `financyou`
repository (`investment_calculator`), covering:

* `stochastic_models/hull_white.py` — Hull-White short-rate scenarios,
  explosive-path filtering and replacement, deflators, residuals;
* `stochastic_models/correlation.py` — correlated shock generation with
  antithetic variates and Cholesky factorisation;
* `stochastic_models/calibration.py` — EIOPA bond-price calibration;
* `stochastic_models/real_estate.py` — deterministic rental returns;
* `modules/scenario_generator.py` — the orchestrator assembling the
  `EconomicScenarioTable` in simple and stochastic modes.

Modelling conventions: machine floats are modelled by `ℚ` where the code only
compares, adds and multiplies (so that concrete runs are decidable), and by
`ℝ` where genuine transcendental facts are at stake (`exp`, `sqrt`).
Transcendental library calls appearing inside otherwise rational pipelines
(`np.log`, `np.exp`) are passed in as explicit function parameters, and the
Gaussian draws of `np.random` are passed in as explicit oracle streams: the
Python code consumes a global seeded stream, which the embedding makes
explicit.  Matrices produced by `np.zeros((r, c))`-then-fill loops are
embedded as length-`r` lists of rows, so that row counts are fixed by the
code, not by the oracles.
-/

namespace FinancYou

open Matrix

/-! ## Hull-White deflators (`HullWhiteModel._calculate_deflators`)

`_calculate_deflators` computes `np.exp(-np.cumsum(Rt, axis=1))`.  The
per-scenario cumulative sum (`np.cumsum` along a row, indexed by step) is
embedded as a recursive function on the step index. -/

/-- Row-wise cumulative sum, mirroring `np.cumsum(Rt, axis=1)` applied to the
scenario row `x`: entry `t` is `x 0 + ... + x t`. -/
def cumsum (x : ℕ → ℝ) : ℕ → ℝ
  | 0 => x 0
  | t + 1 => cumsum x t + x (t + 1)

/-- `HullWhiteModel._calculate_deflators` (hull_white.py:369-387):
`deflators = np.exp(-cumulative_rates)` where
`cumulative_rates = np.cumsum(Rt, axis=1)`. -/
noncomputable def calculate_deflators (Rt : ℕ → ℕ → ℝ) (s t : ℕ) : ℝ :=
  Real.exp (-(cumsum (Rt s) t))

/-! ## Real-estate rental returns (`RealEstateModel._generate_rental_returns`)

real_estate.py:249-282: `base_rental = np.log(1 + self.rental_yield) * self.dt`,
`inflation_adj = self.inflation_adjustment * self.dt`, and every scenario row
gets `rental_returns[:, t] = base_rental + t * inflation_adj`. -/

/-- `RealEstateModel._generate_rental_returns` entry for scenario `s`, step `t`
(the code writes the same value into every scenario row, so `s` is unused). -/
noncomputable def generate_rental_returns
    (rental_yield inflation_adjustment dt : ℝ) (s t : ℕ) : ℝ :=
  Real.log (1 + rental_yield) * dt + t * (inflation_adjustment * dt)

/-! ## Cholesky factorisation (`CorrelatedRandomGenerator._compute_cholesky`)

correlation.py:152-170 calls `np.linalg.cholesky(self.correlation_matrix)`,
which for a positive definite input returns the unique lower-triangular factor
`L` with positive diagonal such that `L @ L.T` equals the input (the
`LinAlgError` regularisation branch is not taken for a positive definite
matrix).  `np.linalg.cholesky` is LAPACK library code, not repository code; it
is embedded mathematically as the LDL decomposition with the square root of
the diagonal folded into the lower factor, which is exactly that unique
factor. -/

instance (m : ℕ) : WellFoundedLT (Fin m) := Finite.to_wellFoundedLT

/-- Model of `CorrelatedRandomGenerator._compute_cholesky` on a positive
definite correlation matrix: the lower-triangular Cholesky factor
`L = lower · sqrt(D)` of the LDL decomposition `S = lower · D · lowerᵀ`. -/
noncomputable def compute_cholesky {n : Type*} [Fintype n] [LinearOrder n]
    [WellFoundedLT n] [LocallyFiniteOrderBot n]
    {S : Matrix n n ℝ} (hS : S.PosDef) : Matrix n n ℝ :=
  LDL.lower hS * Matrix.diagonal fun i => Real.sqrt (LDL.diagEntries hS i)

/-! ## EIOPA calibration (`EIOPACalibrator`)

calibration.py:187-228.  `_calculate_bond_prices` computes
`P0t = 1 / (1 + spot_rates) ** maturities` for `maturities = 1, 2, ...` and
prepends `P(0,0) = 1`.  `_interpolate_bond_prices` evaluates a cubic spline
(`scipy.interpolate.UnivariateSpline`, external library code, embedded as an
arbitrary function parameter `spline`) on the grid
`np.arange(0, T_max + dt, dt)` and then re-pins `P0t_interp[0] = 1.0`. -/

/-- `EIOPACalibrator._calculate_bond_prices`: bond prices
`1 / (1 + r_k) ^ (k+1)` for the spot rate with maturity `k+1`, with
`P(0,0) = 1` prepended. -/
def calculate_bond_prices (spot_rates : List ℚ) : List ℚ :=
  1 :: (List.zip spot_rates ((List.range spot_rates.length).map (· + 1))).map
    fun p => 1 / (1 + p.1) ^ p.2

/-- Number of points of `np.arange(0, stop, dt)` for `dt > 0`, namely
`⌈stop / dt⌉` (the grid runs over `i * dt < stop`). -/
def arange_size (stop dt : ℚ) : ℕ := ⌈stop / dt⌉.toNat

/-- `EIOPACalibrator._interpolate_bond_prices`: evaluate the spline on the
`dt`-grid `np.arange(0, T_max + dt, dt)` with `T_max = len(P0t) - 1`, then
re-pin the first value to `1`. -/
def interpolate_bond_prices (spline : ℚ → ℚ) (P0t : List ℚ) (dt : ℚ) : List ℚ :=
  let Tmax : ℚ := (P0t.length - 1 : ℕ)
  let vals := (List.range (arange_size (Tmax + dt) dt)).map fun i : ℕ => spline ((i : ℚ) * dt)
  match vals with
  | [] => []
  | _ :: tail => 1 :: tail

/-! ## Independent shocks with antithetic variates

`CorrelatedRandomGenerator._generate_independent_shocks`
(correlation.py:236-267) draws a cube of standard normals for the first
`n_scenarios // 2` scenario slots and mirrors their signs for the second
half; `HullWhiteModel.generate_scenarios` (hull_white.py:182-186) does the
same per time step.  The Gaussian draws are explicit oracle arguments. -/

/-- `CorrelatedRandomGenerator._generate_independent_shocks`: entry for asset
`a`, scenario `s`, step `t`, given the half-cube of draws.  Defined for
`s < 2 * (nScenarios / 2)` in antithetic mode (the array built by the code has
exactly that many scenario rows) and `s < nScenarios` otherwise. -/
def generate_independent_shocks (useAntithetic : Bool) (draws : ℕ → ℕ → ℕ → ℚ)
    (nScenarios : ℕ) (a s t : ℕ) : ℚ :=
  if useAntithetic then
    let nHalf := nScenarios / 2
    if s < nHalf then draws a s t else -(draws a (s - nHalf) t)
  else draws a s t

/-- `HullWhiteModel.generate_scenarios` per-step shock vector
(hull_white.py:182-186): `np.concatenate([shocks_half, -shocks_half])` in
antithetic mode. -/
def hw_shocks (useAntithetic : Bool) (draw : ℕ → ℚ) (nSim s : ℕ) : ℚ :=
  if useAntithetic then
    if s < nSim / 2 then draw s else -(draw (s - nSim / 2))
  else draw s

/-- `CorrelatedRandomGenerator._apply_correlation` (correlation.py:269-297):
per time step, multiply the independent shock matrix by the Cholesky factor,
`correlated[:, :, t] = L @ independent[:, :, t]`. -/
def apply_correlation (nAssets : ℕ) (L : List (List ℚ))
    (independent : ℕ → ℕ → ℕ → ℚ) (a s t : ℕ) : ℚ :=
  ((List.range nAssets).map fun k => ((L.getD a []).getD k 0) * independent k s t).sum

/-! ## Hull-White generation, explosive-path filtering and replacement

`HullWhiteModel.generate_scenarios` (hull_white.py:138-238) simulates
`n_sim = n_scenarios // 2 * 2` (antithetic) or `n_scenarios` scenario rows of
`rt`/`Rt` (the row count is fixed by `np.zeros((n_sim, n_steps))`), filters
explosive rows, optionally regenerates replacements, and derives deflators
and residuals.  The floating-point recurrence that fills the rows
(hull_white.py:180-221) only influences the claims below through the values
of the finished rows, so each simulated scenario row pair `(rt row, Rt row)`
is supplied by an oracle (`basePath` for the initial simulation, `replPath`
for replacement attempts); `np.log` and `np.exp` are likewise explicit
function parameters `log1p x` (for `np.log(1 + x)`) and `expQ`. -/

/-- One simulated scenario: its `rt` row and its `Rt` row (each of length
`n_steps`). -/
abbrev ScenPath : Type := List ℚ × List ℚ

/-- Explosive test for one `Rt` row (hull_white.py:268-270):
`np.any(Rt > lim_high_cont) | np.any(Rt < lim_low_cont)`. -/
def isExplosive (limHighCont limLowCont : ℚ) (RtRow : List ℚ) : Bool :=
  RtRow.any (fun x => decide (limHighCont < x)) ||
    RtRow.any (fun x => decide (x < limLowCont))

/-- Cumulative sums of a list with starting accumulator `acc`
(`np.cumsum` on one row). -/
def cumsumFrom (acc : ℚ) : List ℚ → List ℚ
  | [] => []
  | x :: xs => (acc + x) :: cumsumFrom (acc + x) xs

/-- `HullWhiteModel._calculate_deflators` applied to one `Rt` row:
`np.exp(-np.cumsum(row))`, with `expQ` standing for the machine `np.exp`. -/
def deflatorRow (expQ : ℚ → ℚ) (RtRow : List ℚ) : List ℚ :=
  (cumsumFrom 0 RtRow).map fun c => expQ (-c)

/-- One replacement attempt's simulated matrix (hull_white.py:313-354):
`nSim` scenario rows supplied by the oracle for that attempt. -/
def replacement_attempt (replPath : ℕ → ℕ → ScenPath) (attempt nSim : ℕ) :
    List ScenPath :=
  (List.range nSim).map (replPath attempt)

/-- The retry loop of `HullWhiteModel._generate_replacement_scenarios`
(hull_white.py:313-367): up to `maxAttempts` attempts; an attempt succeeds
when at least `nNeeded` of its rows are non-explosive, returning the first
`nNeeded` good rows; once attempts are exhausted the last attempt's raw
matrix, truncated to `nNeeded` rows, is returned (together with the
`warnings.warn` flag for exhaustion). -/
def replacement_loop (nNeeded nSim : ℕ) (limHighCont limLowCont : ℚ)
    (replPath : ℕ → ℕ → ScenPath) (maxAttempts : ℕ) :
    ℕ → List ScenPath × Bool
  | 0 => ((replacement_attempt replPath (maxAttempts - 1) nSim).take nNeeded, true)
  | fuel + 1 =>
    let mat := replacement_attempt replPath (maxAttempts - (fuel + 1)) nSim
    let good := mat.filter fun p => !(isExplosive limHighCont limLowCont p.2)
    if nNeeded ≤ good.length then (good.take nNeeded, false)
    else replacement_loop nNeeded nSim limHighCont limLowCont replPath maxAttempts fuel

/-- `HullWhiteModel._generate_replacement_scenarios` (hull_white.py:302-367):
`n_sim = n_needed // 2 * 2` in antithetic mode, then the bounded retry loop
with `max_attempts = 10`. -/
def generate_replacement_scenarios (nNeeded : ℕ) (limHighCont limLowCont : ℚ)
    (useAntithetic : Bool) (replPath : ℕ → ℕ → ScenPath) : List ScenPath × Bool :=
  let nSim := if useAntithetic then nNeeded / 2 * 2 else nNeeded
  replacement_loop nNeeded nSim limHighCont limLowCont replPath 10 10

/-- `HullWhiteModel._filter_explosive_scenarios` (hull_white.py:240-300):
convert the limits to continuous form, drop explosive rows (warning when any
were dropped), regenerate replacements when the removed fraction
`n_bad / len(Rt) * 100` is below `max_retries` (with an empty input matrix
that fraction is IEEE NaN and the comparison is false, hence the
`paths ≠ []` conjunct), then trim to `n_scenarios` rows.  Returns the kept
rows together with the flag recording whether any `warnings.warn` fired. -/
def filter_explosive_scenarios (nScenarios : ℕ) (paths : List ScenPath)
    (limHighCont limLowCont maxRetries : ℚ) (useAntithetic : Bool)
    (replPath : ℕ → ℕ → ScenPath) : List ScenPath × Bool :=
  let nBad := (paths.filter fun p => isExplosive limHighCont limLowCont p.2).length
  let pctRemoved : ℚ := (nBad : ℚ) / (paths.length : ℚ) * 100
  let kept := paths.filter fun p => !(isExplosive limHighCont limLowCont p.2)
  let nNeeded := nScenarios - kept.length
  let filterWarn := decide (0 < nBad)
  if 0 < nNeeded ∧ paths ≠ [] ∧ pctRemoved < maxRetries then
    let repl := generate_replacement_scenarios nNeeded limHighCont limLowCont
      useAntithetic replPath
    let kept2 := kept ++ repl.1
    (if nScenarios < kept2.length then kept2.take nScenarios else kept2,
      filterWarn || repl.2)
  else
    (if nScenarios < kept.length then kept.take nScenarios else kept, filterWarn)

/-- Result of `HullWhiteModel.generate_scenarios`: the dictionary
`{rt, Rt, deflators, residuals}` (hull_white.py:233-238), plus the flag
recording whether any `warnings.warn` fired during filtering/replacement. -/
structure HWResult where
  rt : List (List ℚ)
  Rt : List (List ℚ)
  deflators : List (List ℚ)
  residuals : List (List ℚ)
  warned : Bool

/-- `HullWhiteModel.generate_scenarios` (hull_white.py:138-238):
`n_sim = n_scenarios // 2 * 2` in antithetic mode; simulate `n_sim` rows
(supplied by `basePath`), filter/replace explosive rows, compute deflators
row-wise from `Rt` and residuals row-wise from `rt` (the drift-inversion
arithmetic of `_extract_residuals`, hull_white.py:389-419, acts on each `rt`
row separately and is abstracted as `residualRow`). -/
def hw_generate_scenarios (nScenarios : ℕ) (useAntithetic : Bool)
    (limHigh limLow maxRetries : ℚ) (log1p : ℚ → ℚ) (expQ : ℚ → ℚ)
    (residualRow : List ℚ → List ℚ) (basePath : ℕ → ScenPath)
    (replPath : ℕ → ℕ → ScenPath) : HWResult :=
  let nSim := if useAntithetic then nScenarios / 2 * 2 else nScenarios
  let paths := (List.range nSim).map basePath
  let filtered := filter_explosive_scenarios nScenarios paths
    (log1p limHigh) (log1p limLow) maxRetries useAntithetic replPath
  { rt := filtered.1.map Prod.fst
    Rt := filtered.1.map Prod.snd
    deflators := (filtered.1.map Prod.snd).map (deflatorRow expQ)
    residuals := (filtered.1.map Prod.fst).map residualRow
    warned := filtered.2 }

/-! ## Orchestrator: the EconomicScenarioTable (`ScenarioGenerator`)

scenario_generator.py.  A table row carries exactly the eight columns of the
`scenarios` DataFrame; the label `f"scenario_{idx+1:04d}"` is injective in the
scenario index, so `scenario_id` is embedded as the number `idx + 1`. -/

/-- One row of the `scenarios` DataFrame
(scenario_generator.py:275-284 and 447-456). -/
structure ScenarioRow where
  scenario_id : ℕ
  time_period : ℚ
  interest_rate : ℚ
  stock_return : ℚ
  bond_return : ℚ
  real_estate_return : ℚ
  inflation : ℚ
  gdp_growth : ℚ
deriving DecidableEq

/-- The economic parameters used by `_generate_simple`
(scenario_generator.py:104-125). -/
structure EconomicParams where
  inflation_mean : ℚ
  inflation_volatility : ℚ
  interest_mean : ℚ
  interest_volatility : ℚ
  equity_drift : ℚ
  equity_volatility : ℚ
  bond_return_mean : ℚ
  bond_return_std : ℚ
  real_estate_drift : ℚ
  real_estate_volatility : ℚ
  gdp_growth_mean : ℚ
  gdp_growth_std : ℚ
deriving DecidableEq

/-- The row `_generate_simple` appends for scenario `s`, step `t`
(scenario_generator.py:224-272), given the three per-scenario shock streams
`base_shock`, `inflation_shock`, `market_shock`. -/
def simple_row (p : EconomicParams) (baseShock inflShock mktShock : ℕ → ℕ → ℚ)
    (dt : ℚ) (s t : ℕ) : ScenarioRow :=
  { scenario_id := s + 1
    time_period := ((t + 1 : ℕ) : ℚ) * dt
    interest_rate := p.interest_mean +
      p.interest_volatility * (1/2 * baseShock s t + 1/2 * inflShock s t)
    stock_return := p.equity_drift +
      p.equity_volatility * (4/5 * mktShock s t + 1/5 * baseShock s t)
    bond_return := p.bond_return_mean +
      p.bond_return_std * (-(3/10) * mktShock s t + 7/10 * baseShock s t)
    real_estate_return := p.real_estate_drift +
      p.real_estate_volatility * (1/2 * mktShock s t + 1/2 * baseShock s t)
    inflation := p.inflation_mean +
      p.inflation_volatility * (7/10 * baseShock s t + 3/10 * inflShock s t)
    gdp_growth := p.gdp_growth_mean +
      p.gdp_growth_std * (3/5 * mktShock s t + 2/5 * baseShock s t) }

/-- `ScenarioGenerator._generate_simple` table assembly
(scenario_generator.py:224-284): the nested loops append one row per
(scenario, step) pair, scenario-major. -/
def generate_simple (p : EconomicParams)
    (baseShock inflShock mktShock : ℕ → ℕ → ℚ) (nScenarios nSteps : ℕ)
    (dt : ℚ) : List ScenarioRow :=
  (List.range nScenarios).flatMap fun s =>
    (List.range nSteps).map fun t => simple_row p baseShock inflShock mktShock dt s t

/-- Simple-mode deflators for one scenario
(scenario_generator.py:287-291): `np.exp(-np.cumsum(rates * timestep))` over
that scenario's interest-rate column. -/
def simple_deflator_row (expQ : ℚ → ℚ) (p : EconomicParams)
    (baseShock inflShock mktShock : ℕ → ℕ → ℚ) (nSteps : ℕ) (dt : ℚ) (s : ℕ) :
    List ℚ :=
  deflatorRow expQ ((List.range nSteps).map fun t =>
    (simple_row p baseShock inflShock mktShock dt s t).interest_rate * dt)

/-- Exception-aware traversal: the Python assembly loop appends results and
aborts with an `IndexError` as soon as one element fails, which an `Option`
traversal models as `none`. -/
def traverseOption {α β : Type} (f : α → Option β) : List α → Option (List β)
  | [] => some []
  | x :: xs =>
    match f x, traverseOption f xs with
    | some y, some ys => some (y :: ys)
    | _, _ => none

/-- Checked matrix access `m[s, t]` (an out-of-range access raises
`IndexError` in the source). -/
def matGet? (m : List (List ℚ)) (s t : ℕ) : Option ℚ :=
  (m[s]?).bind fun row => row[t]?

/-- One row of the stochastic-mode table (scenario_generator.py:437-445):
reads entry `(s, t)` of each component matrix, failing if any is missing. -/
def stochastic_row? (Rt stock bond re inflM gdp : List (List ℚ)) (dt : ℚ)
    (s t : ℕ) : Option ScenarioRow := do
  let ir ← matGet? Rt s t
  let sr ← matGet? stock s t
  let br ← matGet? bond s t
  let rr ← matGet? re s t
  let ij ← matGet? inflM s t
  let gg ← matGet? gdp s t
  pure { scenario_id := s + 1
         time_period := ((t + 1 : ℕ) : ℚ) * dt
         interest_rate := ir
         stock_return := sr
         bond_return := br
         real_estate_return := rr
         inflation := ij
         gdp_growth := gg }

/-- `ScenarioGenerator._generate_stochastic` table assembly
(scenario_generator.py:425-456): nested loops over
`range(n_scenarios) × range(n_steps)`, scenario-major; `none` models the
`IndexError` raised when a component matrix has too few rows. -/
def assemble_stochastic (Rt stock bond re inflM gdp : List (List ℚ))
    (nScenarios nSteps : ℕ) (dt : ℚ) : Option (List ScenarioRow) :=
  (traverseOption (fun s => traverseOption
      (fun t => stochastic_row? Rt stock bond re inflM gdp dt s t)
      (List.range nSteps))
    (List.range nScenarios)).map List.flatten

/-- Stochastic-mode output as seen by the caller: the assembled table paired
with the diagnostics computed from it (scenario_generator.py:458-492).  The
contents of `_calculate_diagnostics` are abstracted into `mkDiag`, which runs
only if assembly succeeded; when assembly raises, no table and no diagnostics
are produced. -/
def generate_stochastic_output {D : Type} (Rt stock bond re inflM gdp : List (List ℚ))
    (nScenarios nSteps : ℕ) (dt : ℚ) (mkDiag : List ScenarioRow → D) :
    Option (List ScenarioRow × D) :=
  (assemble_stochastic Rt stock bond re inflM gdp nScenarios nSteps dt).map
    fun tbl => (tbl, mkDiag tbl)

/-! ## Seeded runs (`ScenarioGenerator.__init__` / `generate`)

scenario_generator.py:93-153.  `__init__` calls `np.random.seed(random_seed)`
and `generate` then consumes the global numpy stream: given the seed, every
subsequent draw is a fixed function of the seed and the draw's position in
the stream.  `numpy_draws` is a stand-in for that seeded stream (the only
property used is that it is a function of the seed), and the three
per-scenario shock vectors of `_generate_simple` read consecutive blocks of
the stream in the order the source draws them. -/

/-- Stand-in for the numpy global stream after `np.random.seed(seed)`:
draw number `k` is a fixed function of `(seed, k)`. -/
def numpy_draws (seed : ℕ) : ℕ → ℚ :=
  fun k => (((seed + 1) * 2654435761 + k * 40503) % 2147483647 : ℕ)

/-- The `base_shock` stream of `_generate_simple`
(scenario_generator.py:228): scenario `s` draws its three shock vectors in
succession, `n_steps` values each. -/
def simple_base_shock (stream : ℕ → ℚ) (nSteps : ℕ) (s t : ℕ) : ℚ :=
  stream (3 * nSteps * s + t)

/-- The `inflation_shock` stream of `_generate_simple`
(scenario_generator.py:229). -/
def simple_infl_shock (stream : ℕ → ℚ) (nSteps : ℕ) (s t : ℕ) : ℚ :=
  stream (3 * nSteps * s + nSteps + t)

/-- The `market_shock` stream of `_generate_simple`
(scenario_generator.py:230). -/
def simple_mkt_shock (stream : ℕ → ℚ) (nSteps : ℕ) (s t : ℕ) : ℚ :=
  stream (3 * nSteps * s + 2 * nSteps + t)

/-- The validated configuration fields of `ScenarioGenerator.generate` that
the generation methods read (scenario_generator.py:155-190). -/
structure GenConfig where
  num_scenarios : ℕ
  n_steps : ℕ
  timestep : ℚ
  use_stochastic : Bool
  params : EconomicParams
deriving DecidableEq

/-- The six component matrices and the deflator matrix feeding the
stochastic-mode assembly (scenario_generator.py:344-463), as produced by the
calibration / Hull-White / correlation / equity / real-estate stages from the
seeded stream.  For claims about the orchestrator the stages are abstracted
as a function of the stream and configuration (see `scenario_generator_run`). -/
structure StochMatrices where
  Rt : List (List ℚ)
  stock : List (List ℚ)
  bond : List (List ℚ)
  re : List (List ℚ)
  inflM : List (List ℚ)
  gdp : List (List ℚ)
  deflators : List (List ℚ)

/-- `ScenarioGenerator` run with an explicit seed: seed the stream, then
dispatch on `use_stochastic` (scenario_generator.py:136-153), returning the
`(scenarios, deflators)` tables.  `stages` maps the seeded stream and the
configuration to the stochastic component matrices; simple mode is fully
embedded.  `none` models an exception escaping `generate`. -/
def scenario_generator_run (expQ : ℚ → ℚ)
    (stages : (ℕ → ℚ) → GenConfig → StochMatrices) (seed : ℕ) (cfg : GenConfig) :
    Option (List ScenarioRow × List (List ℚ)) :=
  let stream := numpy_draws seed
  if cfg.use_stochastic then
    let m := stages stream cfg
    (assemble_stochastic m.Rt m.stock m.bond m.re m.inflM m.gdp
        cfg.num_scenarios cfg.n_steps cfg.timestep).map
      fun tbl => (tbl, m.deflators)
  else
    some
      (generate_simple cfg.params (simple_base_shock stream cfg.n_steps)
        (simple_infl_shock stream cfg.n_steps) (simple_mkt_shock stream cfg.n_steps)
        cfg.num_scenarios cfg.n_steps cfg.timestep,
      (List.range cfg.num_scenarios).map fun s =>
        simple_deflator_row expQ cfg.params (simple_base_shock stream cfg.n_steps)
          (simple_infl_shock stream cfg.n_steps) (simple_mkt_shock stream cfg.n_steps)
          cfg.n_steps cfg.timestep s)

/-! ## CorrelatedRandomGenerator state (`generate`)

correlation.py:72-113 stores the correlation matrix, asset names, counts,
antithetic flag and Cholesky factor on the generator object; `generate`
(correlation.py:172-234) is supposed to leave that state untouched, but when
`rate_residuals` is supplied it overwrites `self.n_steps` with the residual
matrix's step count (correlation.py:204-205). -/

/-- The persistent state of a `CorrelatedRandomGenerator` object. -/
structure CorrGenState where
  correlation_matrix : List (List ℚ)
  cholesky_matrix : List (List ℚ)
  asset_names : List String
  n_assets : ℕ
  n_scenarios : ℕ
  n_steps : ℕ
  use_antithetic : Bool
deriving DecidableEq

/-- Step count (`shape[1]`) of a residual matrix. -/
def residual_steps (r : List (List ℚ)) : ℕ := (r.headD []).length

/-- `CorrelatedRandomGenerator.generate` (correlation.py:172-234): returns
the correlated shock cube (as a function of asset, scenario and step) built
from the independent draws — with the supplied rate residuals substituted for
the first asset row when present — together with the state of the object
after the call.  The only state written is `self.n_steps` in the
residual-substitution branch. -/
def corr_generate (st : CorrGenState) (rate_residuals : Option (List (List ℚ)))
    (draws : ℕ → ℕ → ℕ → ℚ) : (ℕ → ℕ → ℕ → ℚ) × CorrGenState :=
  match rate_residuals with
  | none =>
    let nSim := if st.use_antithetic then st.n_scenarios / 2 * 2 else st.n_scenarios
    (apply_correlation st.n_assets st.cholesky_matrix
      (generate_independent_shocks st.use_antithetic draws nSim), st)
  | some r =>
    let nSim := r.length
    let indep : ℕ → ℕ → ℕ → ℚ := fun a s t =>
      if a = 0 then (r.getD s []).getD t 0
      else generate_independent_shocks st.use_antithetic draws nSim (a - 1) s t
    (apply_correlation st.n_assets st.cholesky_matrix indep,
      { st with n_steps := residual_steps r })

/-! ## Theorems -/

theorem flatten_length_of_const {α : Type} (S : ℕ) :
    ∀ L : List (List α), (∀ l ∈ L, l.length = S) → L.flatten.length = L.length * S := by
  intro L
  induction L with
  | nil => intro _; simp
  | cons r rest ih =>
    intro h
    rw [List.flatten_cons, List.length_append, List.length_cons, Nat.succ_mul,
      ih fun l hl => h l (List.mem_cons_of_mem r hl), h r (List.mem_cons_self r rest),
      Nat.add_comm]

theorem flatten_getElem?_of_const {α : Type} (S : ℕ) :
    ∀ (L : List (List α)) (_ : ∀ l ∈ L, l.length = S) (s t : ℕ)
      (hs : s < L.length) (_ : t < S),
      L.flatten[s * S + t]? = (L.get ⟨s, hs⟩)[t]? := by
  intro L
  induction L with
  | nil => intro _ s t hs _; exact absurd hs (Nat.not_lt_zero s)
  | cons r rest ih =>
    intro h s t hs ht
    have hr : r.length = S := h r (List.mem_cons_self r rest)
    cases s with
    | zero =>
      rw [List.flatten_cons, Nat.zero_mul, Nat.zero_add, List.getElem?_append,
        if_pos (hr ▸ ht)]
      rfl
    | succ s =>
      have hidx : (s + 1) * S + t = r.length + (s * S + t) := by
        rw [hr, Nat.succ_mul]; omega
      rw [List.flatten_cons, hidx, List.getElem?_append_right (Nat.le_add_right _ _),
        Nat.add_sub_cancel_left]
      exact ih (fun l hl => h l (List.mem_cons_of_mem r hl)) s t
        (Nat.lt_of_succ_lt_succ hs) ht

theorem traverseOption_length {α β : Type} (f : α → Option β) :
    ∀ (l : List α) (ys : List β), traverseOption f l = some ys → ys.length = l.length := by
  intro l
  induction l with
  | nil =>
    intro ys h
    rw [traverseOption, Option.some_inj] at h
    cases h
    rfl
  | cons x xs ih =>
    intro ys h
    rw [traverseOption] at h
    cases hfx : f x with
    | none => rw [hfx] at h; exact absurd h (by simp)
    | some y =>
      rw [hfx] at h
      cases htx : traverseOption f xs with
      | none => rw [htx] at h; exact absurd h (by simp)
      | some zs =>
        rw [htx, Option.some_inj] at h
        rw [← h, List.length_cons, List.length_cons, ih zs htx]

theorem traverseOption_some_of_mem {α β : Type} (f : α → Option β) :
    ∀ (l : List α) (ys : List β), traverseOption f l = some ys →
      ∀ x ∈ l, ∃ y, f x = some y := by
  intro l
  induction l with
  | nil => intro ys _ x hx; exact absurd hx (List.not_mem_nil x)
  | cons z xs ih =>
    intro ys h x hx
    rw [traverseOption] at h
    cases hfx : f z with
    | none => rw [hfx] at h; exact absurd h (by simp)
    | some y =>
      rw [hfx] at h
      cases htx : traverseOption f xs with
      | none => rw [htx] at h; exact absurd h (by simp)
      | some zs =>
        rcases List.mem_cons.mp hx with hxz | hxs
        · exact ⟨y, hxz ▸ hfx⟩
        · exact ih zs htx x hxs

theorem traverseOption_getElem? {α β : Type} (f : α → Option β) :
    ∀ (l : List α) (ys : List β), traverseOption f l = some ys →
      ∀ (i : ℕ) (hi : i < l.length), ys[i]? = f (l.get ⟨i, hi⟩) := by
  intro l
  induction l with
  | nil => intro ys _ i hi; exact absurd hi (Nat.not_lt_zero i)
  | cons x xs ih =>
    intro ys h i hi
    rw [traverseOption] at h
    cases hfx : f x with
    | none => rw [hfx] at h; exact absurd h (by simp)
    | some y =>
      rw [hfx] at h
      cases htx : traverseOption f xs with
      | none => rw [htx] at h; exact absurd h (by simp)
      | some zs =>
        rw [htx, Option.some_inj] at h
        cases i with
        | zero => rw [← h, List.getElem?_cons_zero]; exact hfx.symm
        | succ i =>
          rw [← h, List.getElem?_cons_succ]
          exact ih zs htx i (Nat.lt_of_succ_lt_succ hi)

theorem zip_range_map_getElem? (f : ℚ × ℕ → ℚ) :
    ∀ (xs : List ℚ) (base k : ℕ) (hk : k < xs.length),
      ((xs.zip ((List.range xs.length).map (· + base))).map f)[k]? =
        some (f (xs.get ⟨k, hk⟩, k + base)) := by
  intro xs
  induction xs with
  | nil => intro base k hk; exact absurd hk (Nat.not_lt_zero k)
  | cons x xs ih =>
    intro base k hk
    have hr : (List.range (x :: xs).length).map (· + base) =
        base :: (List.range xs.length).map (· + (base + 1)) := by
      rw [List.length_cons, List.range_succ_eq_map, List.map_cons, Nat.zero_add,
        List.map_map]
      have : ((· + base) ∘ Nat.succ) = fun i => i + (base + 1) := by
        funext i
        simp [Function.comp]
        omega
      rw [this]
    rw [hr]
    cases k with
    | zero =>
      rw [List.zip_cons_cons, List.map_cons, List.getElem?_cons_zero, Nat.zero_add]
      rfl
    | succ k =>
      have hk' : k < xs.length := Nat.lt_of_succ_lt_succ hk
      have := ih (base + 1) k hk'
      rw [List.zip_cons_cons, List.map_cons, List.getElem?_cons_succ, this]
      have harith : k + (base + 1) = k + 1 + base := by omega
      rw [harith]
      rfl

theorem interpolate_bond_prices_head (spline : ℚ → ℚ) (P0t : List ℚ) (dt : ℚ)
    (hdt : 0 < dt) :
    (interpolate_bond_prices spline P0t dt)[0]? = some 1 := by
  have hpos : 0 < arange_size (((P0t.length - 1 : ℕ) : ℚ) + dt) dt := by
    rw [arange_size]
    have hnum : (0 : ℚ) < ((P0t.length - 1 : ℕ) : ℚ) + dt :=
      add_pos_of_nonneg_of_pos (Nat.cast_nonneg _) hdt
    have hceil : 0 < ⌈(((P0t.length - 1 : ℕ) : ℚ) + dt) / dt⌉ :=
      Int.ceil_pos.mpr (div_pos hnum hdt)
    omega
  obtain ⟨m, hm⟩ : ∃ m, arange_size (((P0t.length - 1 : ℕ) : ℚ) + dt) dt = m + 1 :=
    ⟨_, (Nat.succ_pred_eq_of_pos hpos).symm⟩
  simp only [interpolate_bond_prices, hm, List.range_succ_eq_map, List.map_cons,
    List.getElem?_cons_zero]

/-- C5: calibration computes `P(0,0) = 1` followed by
`P(0,k+1) = 1/(1+r_k)^(k+1)` for the spot rate `r_k` of maturity `k+1`, and
after spline interpolation onto the `dt` grid the first bond price is pinned
to exactly `1`, for every spot-rate input and every spline. -/
theorem bond_prices_calibration (spot_rates : List ℚ) (spline : ℚ → ℚ) (dt : ℚ)
    (hdt : 0 < dt) :
    (calculate_bond_prices spot_rates)[0]? = some 1 ∧
      (∀ (k : ℕ) (hk : k < spot_rates.length),
        (calculate_bond_prices spot_rates)[k + 1]? =
          some (1 / (1 + spot_rates.get ⟨k, hk⟩) ^ (k + 1))) ∧
      (interpolate_bond_prices spline (calculate_bond_prices spot_rates) dt)[0]? =
        some 1 := by
  refine ⟨by rw [calculate_bond_prices, List.getElem?_cons_zero], fun k hk => ?_, ?_⟩
  · rw [calculate_bond_prices, List.getElem?_cons_succ,
      zip_range_map_getElem? _ spot_rates 1 k hk]
  · exact interpolate_bond_prices_head spline _ dt hdt

/-- C5 witness: a concrete two-point spot curve with `dt = 1/2` and the
identity in place of the spline. -/
theorem bond_prices_calibration_witness :
    0 < (1/2 : ℚ) ∧
      (calculate_bond_prices [1/20, 3/50])[0]? = some 1 ∧
      (calculate_bond_prices [1/20, 3/50])[1 + 1]? = some (1 / (1 + 3/50) ^ (1 + 1)) ∧
      (interpolate_bond_prices (fun x => x) (calculate_bond_prices [1/20, 3/50])
          (1/2))[0]? = some 1 := by
  have h := bond_prices_calibration [1/20, 3/50] (fun x => x) (1/2) (by norm_num)
  refine ⟨by norm_num, h.1, ?_, h.2.2⟩
  have h2 := h.2.1 1 (by decide)
  rw [show ([1/20, 3/50] : List ℚ).get ⟨1, by decide⟩ = 3/50 from rfl] at h2
  exact h2

/-- C6: when antithetic variance reduction is enabled, for every asset
factor, step, and scenario index `i` in the first half, the independent shock
at the paired index `i + n/2` is the exact sign negation of the shock at `i`,
both in `CorrelatedRandomGenerator._generate_independent_shocks` and in the
per-step shock vectors of `HullWhiteModel.generate_scenarios`, before any
correlation transform is applied. -/
theorem antithetic_pairing (draws : ℕ → ℕ → ℕ → ℚ) (draw : ℕ → ℚ)
    (n a i t : ℕ) (hi : i < n / 2) :
    generate_independent_shocks true draws n a (i + n / 2) t =
      -(generate_independent_shocks true draws n a i t) ∧
      hw_shocks true draw n (i + n / 2) = -(hw_shocks true draw n i) := by
  have h1 : ¬(i + n / 2 < n / 2) := by omega
  constructor
  · simp [generate_independent_shocks, hi, h1]
  · simp [hw_shocks, hi, h1]

/-- C6 witness: with four scenarios, asset `0`, step `0` and first-half index
`1`, the shock at paired index `3` is the negation of the shock at index `1`. -/
theorem antithetic_pairing_witness :
    1 < 4 / 2 ∧
      (generate_independent_shocks true (fun a s t => (a + s + t + 1 : ℚ)) 4 0 (1 + 4 / 2) 0 =
          -(generate_independent_shocks true (fun a s t => (a + s + t + 1 : ℚ)) 4 0 1 0) ∧
        hw_shocks true (fun s => (s + 1 : ℚ)) 4 (1 + 4 / 2) =
          -(hw_shocks true (fun s => (s + 1 : ℚ)) 4 1)) :=
  ⟨by decide, antithetic_pairing (fun a s t => (a + s + t + 1 : ℚ)) (fun s => (s + 1 : ℚ))
      4 0 1 0 (by decide)⟩

theorem cumsum_eq_sum (x : ℕ → ℝ) (t : ℕ) :
    cumsum x t = ∑ i in Finset.range (t + 1), x i := by
  induction t with
  | zero => simp [cumsum]
  | succ t ih => rw [Finset.sum_range_succ, ← ih]; rfl

/-- C3: for every rate matrix `Rt`, every scenario `s` and step `t`, the
deflator equals `exp(-(Rt s 0 + ... + Rt s t))`, and consequently every
deflator entry is strictly positive. -/
theorem deflators_eq_exp_neg_cumsum_and_pos (Rt : ℕ → ℕ → ℝ) (s t : ℕ) :
    calculate_deflators Rt s t = Real.exp (-(∑ i in Finset.range (t + 1), Rt s i)) ∧
      0 < calculate_deflators Rt s t := by
  constructor
  · rw [calculate_deflators, cumsum_eq_sum]
  · exact Real.exp_pos _

theorem diagEntries_nonneg {n : Type*} [Fintype n] [LinearOrder n]
    [WellFoundedLT n] [LocallyFiniteOrderBot n]
    {S : Matrix n n ℝ} (hS : S.PosDef) (i : n) :
    0 ≤ LDL.diagEntries hS i := by
  have h1 : (LDL.lowerInv hS * S * (LDL.lowerInv hS)ᴴ).PosSemidef :=
    hS.posSemidef.mul_mul_conjTranspose_same _
  rw [← LDL.diag_eq_lowerInv_conj hS, LDL.diag] at h1
  exact Matrix.posSemidef_diagonal_iff.mp h1 i

/-- C4: for every valid (symmetric positive definite) correlation matrix `S`,
the lower-triangular factor computed by
`CorrelatedRandomGenerator._compute_cholesky` satisfies `L * Lᵀ = S`. -/
theorem compute_cholesky_mul_transpose {n : Type*} [Fintype n] [LinearOrder n]
    [WellFoundedLT n] [LocallyFiniteOrderBot n]
    (S : Matrix n n ℝ) (hS : S.PosDef) :
    compute_cholesky hS * (compute_cholesky hS)ᵀ = S := by
  have hsq : (Matrix.diagonal fun i => Real.sqrt (LDL.diagEntries hS i)) *
      (Matrix.diagonal fun i => Real.sqrt (LDL.diagEntries hS i)) = LDL.diag hS := by
    rw [Matrix.diagonal_mul_diagonal, LDL.diag]
    exact congrArg Matrix.diagonal
      (funext fun i => Real.mul_self_sqrt (diagEntries_nonneg hS i))
  rw [compute_cholesky, Matrix.transpose_mul, Matrix.diagonal_transpose, Matrix.mul_assoc,
    ← Matrix.mul_assoc (Matrix.diagonal fun i => Real.sqrt (LDL.diagEntries hS i)), hsq,
    ← Matrix.mul_assoc, ← Matrix.conjTranspose_eq_transpose_of_trivial (LDL.lower hS)]
  exact LDL.lower_conj_diag hS

/-- C4 witness: the identity matrix is a valid correlation matrix (symmetric,
unit diagonal, positive definite) and its computed factor satisfies
`L * Lᵀ = 1`. -/
theorem compute_cholesky_mul_transpose_witness :
    (1 : Matrix (Fin 2) (Fin 2) ℝ).PosDef ∧
      compute_cholesky (Matrix.PosDef.one : (1 : Matrix (Fin 2) (Fin 2) ℝ).PosDef) *
        (compute_cholesky (Matrix.PosDef.one : (1 : Matrix (Fin 2) (Fin 2) ℝ).PosDef))ᵀ = 1 :=
  ⟨Matrix.PosDef.one, compute_cholesky_mul_transpose 1 Matrix.PosDef.one⟩

/-- C8: the rental return is given by the closed formula
`log(1+rentalYield)·dt + elapsedSteps·inflationAdjustment·dt`, it is the same
for every scenario, and with positive inflation adjustment and positive `dt`
it is strictly increasing in the step index. -/
theorem rental_returns_formula_monotone (ry ia dt : ℝ) (s t : ℕ)
    (hia : 0 < ia) (hdt : 0 < dt) :
    generate_rental_returns ry ia dt s t = Real.log (1 + ry) * dt + t * ia * dt ∧
      (∀ s', generate_rental_returns ry ia dt s' t = generate_rental_returns ry ia dt s t) ∧
      (∀ t', t < t' →
        generate_rental_returns ry ia dt s t < generate_rental_returns ry ia dt s t') := by
  refine ⟨by rw [generate_rental_returns]; ring, fun s' => rfl, fun t' ht => ?_⟩
  have hc : (t : ℝ) < t' := by exact_mod_cast ht
  have : (t : ℝ) * (ia * dt) < t' * (ia * dt) :=
    mul_lt_mul_of_pos_right hc (mul_pos hia hdt)
  simpa [generate_rental_returns] using this

/-- C8 witness: with `rentalYield = 0.03`, `inflationAdjustment = 0.02` and
`dt = 1.0`, the rental return for year 10 (step index 9) strictly exceeds the
rental return for year 1 (step index 0). -/
theorem rental_returns_formula_monotone_witness :
    0 < (0.02 : ℝ) ∧ 0 < (1 : ℝ) ∧ (0 : ℕ) < 9 ∧
      generate_rental_returns 0.03 0.02 1 0 0 < generate_rental_returns 0.03 0.02 1 0 9 :=
  ⟨by norm_num, by norm_num, by norm_num,
    (rental_returns_formula_monotone 0.03 0.02 1 0 0 (by norm_num) (by norm_num)).2.2 9
      (by norm_num)⟩

theorem stochastic_row?_spec {Rt stock bond re inflM gdp : List (List ℚ)} {dt : ℚ}
    {s t : ℕ} {row : ScenarioRow}
    (h : stochastic_row? Rt stock bond re inflM gdp dt s t = some row) :
    (∃ v, matGet? Rt s t = some v) ∧ row.scenario_id = s + 1 ∧
      row.time_period = ((t + 1 : ℕ) : ℚ) * dt := by
  simp only [stochastic_row?, Option.bind_eq_bind, Option.bind_eq_some, Option.pure_def,
    Option.some.injEq] at h
  obtain ⟨ir, h1, sr, h2, br, h3, rr, h4, ij, h5, gg, h6, hrow⟩ := h
  exact ⟨⟨ir, h1⟩, by rw [← hrow], by rw [← hrow]⟩

theorem traverseOption_range_getElem {α : Type} (f : ℕ → Option α)
    {N : ℕ} {L : List α} (hL : traverseOption f (List.range N) = some L)
    (s : ℕ) (hs : s < N) : L[s]? = f s := by
  have hlen : s < (List.range N).length := by rw [List.length_range]; exact hs
  have := traverseOption_getElem? f (List.range N) L hL s hlen
  rwa [show (List.range N).get ⟨s, hlen⟩ = s by simp] at this

/-- C1: the simple-mode `scenarios` table has exactly
`num_scenarios × num_steps` rows, with the row for scenario `s` and period
`t` at position `s * num_steps + t` carrying `scenario_id = s + 1` and
`time_period = (t+1)·dt` (the `ScenarioRow` fields are exactly the eight
columns of the table); and every stochastic-mode table actually returned by
the assembly loop likewise has exactly `num_scenarios × num_steps` rows, one
per (scenario, period). -/
theorem scenario_table_shape (p : EconomicParams)
    (bsh ish msh : ℕ → ℕ → ℚ) (N S : ℕ) (dt : ℚ) :
    (generate_simple p bsh ish msh N S dt).length = N * S ∧
      (∀ (s t : ℕ), s < N → t < S →
        (generate_simple p bsh ish msh N S dt)[s * S + t]? =
            some (simple_row p bsh ish msh dt s t) ∧
          (simple_row p bsh ish msh dt s t).scenario_id = s + 1 ∧
          (simple_row p bsh ish msh dt s t).time_period = ((t + 1 : ℕ) : ℚ) * dt) ∧
      (∀ (Rt stock bond re inflM gdp : List (List ℚ)) (tbl : List ScenarioRow),
        assemble_stochastic Rt stock bond re inflM gdp N S dt = some tbl →
        tbl.length = N * S ∧
          ∀ (s t : ℕ), s < N → t < S → ∃ row,
            tbl[s * S + t]? = some row ∧
              stochastic_row? Rt stock bond re inflM gdp dt s t = some row ∧
              row.scenario_id = s + 1 ∧ row.time_period = ((t + 1 : ℕ) : ℚ) * dt) := by
  have hsimple_rows : ∀ l ∈ (List.range N).map
      (fun s => (List.range S).map fun t => simple_row p bsh ish msh dt s t),
      l.length = S := by
    intro l hl
    obtain ⟨s, _, rfl⟩ := List.mem_map.mp hl
    rw [List.length_map, List.length_range]
  refine ⟨?_, fun s t hs ht => ?_, fun Rt stock bond re inflM gdp tbl h => ?_⟩
  · rw [generate_simple, List.flatMap_def,
      flatten_length_of_const S _ hsimple_rows, List.length_map, List.length_range]
  · have hsL : s < ((List.range N).map
        (fun s => (List.range S).map fun t => simple_row p bsh ish msh dt s t)).length := by
      rw [List.length_map, List.length_range]; exact hs
    refine ⟨?_, rfl, rfl⟩
    rw [generate_simple, List.flatMap_def,
      flatten_getElem?_of_const S _ hsimple_rows s t hsL ht]
    have hget : ((List.range N).map
        (fun s => (List.range S).map fun t => simple_row p bsh ish msh dt s t)).get
          ⟨s, hsL⟩ = (List.range S).map fun t => simple_row p bsh ish msh dt s t := by
      simp
    rw [hget, List.getElem?_map, List.getElem?_range ht]
    rfl
  · rw [assemble_stochastic, Option.map_eq_some'] at h
    obtain ⟨L, hL, htbl⟩ := h
    have hLlen : L.length = N := by
      rw [traverseOption_length _ _ _ hL, List.length_range]
    have hrows : ∀ l ∈ L, l.length = S := by
      intro l hl
      obtain ⟨i, hi, hEq⟩ := List.getElem_of_mem hl
      have hiN : i < N := by rw [← hLlen]; exact hi
      have hgot := traverseOption_range_getElem _ hL i hiN
      rw [List.getElem?_eq_getElem hi] at hgot
      have : traverseOption
          (fun t => stochastic_row? Rt stock bond re inflM gdp dt i t)
          (List.range S) = some l := by rw [← hgot, ← hEq]
      rw [traverseOption_length _ _ _ this, List.length_range]
    subst htbl
    constructor
    · rw [flatten_length_of_const S L hrows, hLlen]
    · intro s t hs ht
      have hsL : s < L.length := by rw [hLlen]; exact hs
      have hidx := flatten_getElem?_of_const S L hrows s t hsL ht
      have hFs : traverseOption
          (fun t => stochastic_row? Rt stock bond re inflM gdp dt s t)
          (List.range S) = some (L.get ⟨s, hsL⟩) := by
        have hgot := traverseOption_range_getElem _ hL s hs
        rw [List.getElem?_eq_getElem hsL] at hgot
        rw [← hgot]
        simp
      have hlen_s : (L.get ⟨s, hsL⟩).length = S := hrows _ (L.get_mem _ _)
      have htS : t < (L.get ⟨s, hsL⟩).length := by rw [hlen_s]; exact ht
      have hrowt := traverseOption_range_getElem _ hFs t ht
      have hsome : (L.get ⟨s, hsL⟩)[t]? = some ((L.get ⟨s, hsL⟩).get ⟨t, htS⟩) := by
        rw [List.getElem?_eq_getElem htS]
        rfl
      have hsr : stochastic_row? Rt stock bond re inflM gdp dt s t =
          some ((L.get ⟨s, hsL⟩).get ⟨t, htS⟩) := by rw [← hrowt, hsome]
      refine ⟨(L.get ⟨s, hsL⟩).get ⟨t, htS⟩, ?_, hsr, (stochastic_row?_spec hsr).2⟩
      rw [hidx, hsome]

/-- C1 witness: one scenario, one step, `dt = 1`, zero parameters and zero
draws for simple mode; `[[5]]` component matrices for stochastic mode. -/
theorem scenario_table_shape_witness :
    (generate_simple ⟨0, 0, 0, 0, 0, 0, 0, 0, 0, 0, 0, 0⟩ (fun _ _ => 0) (fun _ _ => 0)
        (fun _ _ => 0) 1 1 1).length = 1 * 1 ∧
      (generate_simple ⟨0, 0, 0, 0, 0, 0, 0, 0, 0, 0, 0, 0⟩ (fun _ _ => 0) (fun _ _ => 0)
          (fun _ _ => 0) 1 1 1)[0 * 1 + 0]? =
        some (simple_row ⟨0, 0, 0, 0, 0, 0, 0, 0, 0, 0, 0, 0⟩ (fun _ _ => 0) (fun _ _ => 0)
          (fun _ _ => 0) 1 0 0) ∧
      assemble_stochastic [[5]] [[5]] [[5]] [[5]] [[5]] [[5]] 1 1 1 =
        some [⟨1, 1, 5, 5, 5, 5, 5, 5⟩] ∧
      ([(⟨1, 1, 5, 5, 5, 5, 5, 5⟩ : ScenarioRow)]).length = 1 * 1 := by
  have h := scenario_table_shape ⟨0, 0, 0, 0, 0, 0, 0, 0, 0, 0, 0, 0⟩ (fun _ _ => 0)
    (fun _ _ => 0) (fun _ _ => 0) 1 1 1
  have hasm : assemble_stochastic [[5]] [[5]] [[5]] [[5]] [[5]] [[5]] 1 1 1 =
      some [⟨1, 1, 5, 5, 5, 5, 5, 5⟩] := by
    norm_num [assemble_stochastic, traverseOption, stochastic_row?, matGet?]
  exact ⟨h.1, (h.2.1 0 0 (by decide) (by decide)).1, hasm,
    (h.2.2 [[5]] [[5]] [[5]] [[5]] [[5]] [[5]] [⟨1, 1, 5, 5, 5, 5, 5, 5⟩] hasm).1⟩

theorem filter_explosive_len_le (N : ℕ) (paths : List ScenPath)
    (limHighCont limLowCont maxRetries : ℚ) (useAnti : Bool)
    (replPath : ℕ → ℕ → ScenPath) :
    (filter_explosive_scenarios N paths limHighCont limLowCont maxRetries useAnti
      replPath).1.length ≤ N := by
  simp only [filter_explosive_scenarios]
  split
  · split
    · rw [List.length_take]
      exact Nat.min_le_left _ _
    · dsimp only
      omega
  · split
    · rw [List.length_take]
      exact Nat.min_le_left _ _
    · dsimp only
      omega

theorem assemble_stochastic_none_of_short (Rt stock bond re inflM gdp : List (List ℚ))
    (N S : ℕ) (dt : ℚ) (hshort : Rt.length < N) (hS : 1 ≤ S) :
    assemble_stochastic Rt stock bond re inflM gdp N S dt = none := by
  by_contra h
  obtain ⟨tbl, htbl⟩ := Option.ne_none_iff_exists'.mp h
  rw [assemble_stochastic, Option.map_eq_some'] at htbl
  obtain ⟨L, hL, _⟩ := htbl
  have hmemN : Rt.length ∈ List.range N := List.mem_range.mpr hshort
  obtain ⟨l, hl⟩ := traverseOption_some_of_mem _ _ _ hL _ hmemN
  have hmemS : 0 ∈ List.range S := List.mem_range.mpr hS
  obtain ⟨row, hrow⟩ := traverseOption_some_of_mem _ _ _ hl _ hmemS
  obtain ⟨⟨v, hv⟩, -, -⟩ := stochastic_row?_spec hrow
  rw [matGet?, List.getElem?_eq_none (Nat.le_refl Rt.length)] at hv
  exact Option.noConfusion hv

/-- C2 (amended): generation never returns more than the requested scenario
count, and whenever it returns fewer (a residual shortfall), the stochastic
orchestrator's table assembly fails before any table or Diagnostics value is
produced — the shortfall is never recorded in a returned Diagnostics. -/
theorem generation_shortfall (N : ℕ) (useAnti : Bool) (limHigh limLow maxRetries : ℚ)
    (log1p expQ : ℚ → ℚ) (residualRow : List ℚ → List ℚ)
    (basePath : ℕ → ScenPath) (replPath : ℕ → ℕ → ScenPath) :
    (hw_generate_scenarios N useAnti limHigh limLow maxRetries log1p expQ residualRow
        basePath replPath).Rt.length ≤ N ∧
      ∀ {D : Type} (mkDiag : List ScenarioRow → D) (S : ℕ) (dt : ℚ)
        (stock bond re inflM gdp : List (List ℚ)),
        (hw_generate_scenarios N useAnti limHigh limLow maxRetries log1p expQ residualRow
            basePath replPath).Rt.length < N → 1 ≤ S →
        generate_stochastic_output
          (hw_generate_scenarios N useAnti limHigh limLow maxRetries log1p expQ residualRow
            basePath replPath).Rt
          stock bond re inflM gdp N S dt mkDiag = none := by
  constructor
  · rw [hw_generate_scenarios]
    simp only [List.length_map]
    exact filter_explosive_len_le N _ _ _ _ _ _
  · intro D mkDiag S dt stock bond re inflM gdp hshort hS
    rw [generate_stochastic_output,
      assemble_stochastic_none_of_short _ _ _ _ _ _ _ _ _ hshort hS]
    rfl

/-- C2 counterexample: with two requested scenarios, no antithetic pairing,
rate limits `0.1`/`-0.05`, retry ceiling `50`, and both simulated paths
explosive (every `Rt` entry is `1`), the generated `Rt` has `0 ≠ 2` rows and
the stochastic orchestration produces no output at all (it raises), so
generation neither returns the full requested scenario count nor records the
shortfall in any returned Diagnostics. -/
theorem generation_shortfall_counterexample :
    ¬ ((hw_generate_scenarios 2 false (1/10) (-(1/20)) 50 id id id (fun _ => ([1], [1]))
          (fun _ _ => ([1], [1]))).Rt.length = 2 ∨
        generate_stochastic_output
          (hw_generate_scenarios 2 false (1/10) (-(1/20)) 50 id id id (fun _ => ([1], [1]))
            (fun _ _ => ([1], [1]))).Rt
          [[0], [0]] [[0], [0]] [[0], [0]] [[0], [0]] [[0], [0]] 2 1 1
          (fun _ => ()) ≠ none) := by
  refine not_or.mpr ⟨?_, not_not_intro ?_⟩
  · norm_num [hw_generate_scenarios, filter_explosive_scenarios, isExplosive]
  · norm_num [hw_generate_scenarios, filter_explosive_scenarios, isExplosive,
      generate_stochastic_output, assemble_stochastic, traverseOption, stochastic_row?,
      matGet?]

/-- C2 witness: the concrete shortfall run of the counterexample instantiates
the amended theorem. -/
theorem generation_shortfall_witness :
    (hw_generate_scenarios 2 false (1/10) (-(1/20)) 50 id id id (fun _ => ([1], [1]))
        (fun _ _ => ([1], [1]))).Rt.length ≤ 2 ∧
      (hw_generate_scenarios 2 false (1/10) (-(1/20)) 50 id id id (fun _ => ([1], [1]))
          (fun _ _ => ([1], [1]))).Rt.length < 2 ∧
      (1 : ℕ) ≤ 1 ∧
      generate_stochastic_output
        (hw_generate_scenarios 2 false (1/10) (-(1/20)) 50 id id id (fun _ => ([1], [1]))
          (fun _ _ => ([1], [1]))).Rt
        [[0], [0]] [[0], [0]] [[0], [0]] [[0], [0]] [[0], [0]] 2 1 1
        (fun _ => ()) = none := by
  have h := generation_shortfall 2 false (1/10) (-(1/20)) 50 id id id
    (fun _ => ([1], [1])) (fun _ _ => ([1], [1]))
  have hlen : (hw_generate_scenarios 2 false (1/10) (-(1/20)) 50 id id id
      (fun _ => ([1], [1])) (fun _ _ => ([1], [1]))).Rt.length < 2 := by
    norm_num [hw_generate_scenarios, filter_explosive_scenarios, isExplosive]
  exact ⟨h.1, hlen, by decide,
    h.2 (fun _ => ()) 1 1 [[0], [0]] [[0], [0]] [[0], [0]] [[0], [0]] [[0], [0]]
      hlen (by decide)⟩

/-- C7: two `ScenarioGenerator` runs with identical random seed and identical
configuration produce identical output tables (scenarios and deflators), for
every choice of the downstream stochastic stages (which read only the seeded
stream and the configuration). -/
theorem run_deterministic (expQ : ℚ → ℚ)
    (stages : (ℕ → ℚ) → GenConfig → StochMatrices) (seed₁ seed₂ : ℕ)
    (cfg₁ cfg₂ : GenConfig) (hseed : seed₁ = seed₂) (hcfg : cfg₁ = cfg₂) :
    scenario_generator_run expQ stages seed₁ cfg₁ =
      scenario_generator_run expQ stages seed₂ cfg₂ := by
  rw [hseed, hcfg]

/-- C7 witness: a concrete simple-mode configuration run twice with seed 42. -/
theorem run_deterministic_witness :
    (42 : ℕ) = 42 ∧
      (⟨2, 3, 1, false, ⟨0, 0, 0, 0, 0, 0, 0, 0, 0, 0, 0, 0⟩⟩ : GenConfig) =
        ⟨2, 3, 1, false, ⟨0, 0, 0, 0, 0, 0, 0, 0, 0, 0, 0, 0⟩⟩ ∧
      scenario_generator_run id (fun _ _ => ⟨[], [], [], [], [], [], []⟩) 42
          ⟨2, 3, 1, false, ⟨0, 0, 0, 0, 0, 0, 0, 0, 0, 0, 0, 0⟩⟩ =
        scenario_generator_run id (fun _ _ => ⟨[], [], [], [], [], [], []⟩) 42
          ⟨2, 3, 1, false, ⟨0, 0, 0, 0, 0, 0, 0, 0, 0, 0, 0, 0⟩⟩ :=
  ⟨rfl, rfl,
    run_deterministic id (fun _ _ => ⟨[], [], [], [], [], [], []⟩) 42 42
      ⟨2, 3, 1, false, ⟨0, 0, 0, 0, 0, 0, 0, 0, 0, 0, 0, 0⟩⟩
      ⟨2, 3, 1, false, ⟨0, 0, 0, 0, 0, 0, 0, 0, 0, 0, 0, 0⟩⟩ rfl rfl⟩

/-- C9 (amended): `CorrelatedRandomGenerator.generate` leaves the correlation
matrix, Cholesky factor, asset names, asset count, scenario count and
antithetic flag unchanged, but sets the stored `n_steps` to the step count of
the supplied rate residuals whenever they are provided (and only then). -/
theorem corr_generate_state_frame (st : CorrGenState)
    (rr : Option (List (List ℚ))) (draws : ℕ → ℕ → ℕ → ℚ) :
    (corr_generate st rr draws).2.correlation_matrix = st.correlation_matrix ∧
      (corr_generate st rr draws).2.cholesky_matrix = st.cholesky_matrix ∧
      (corr_generate st rr draws).2.asset_names = st.asset_names ∧
      (corr_generate st rr draws).2.n_assets = st.n_assets ∧
      (corr_generate st rr draws).2.n_scenarios = st.n_scenarios ∧
      (corr_generate st rr draws).2.use_antithetic = st.use_antithetic ∧
      (corr_generate st rr draws).2.n_steps = rr.elim st.n_steps residual_steps := by
  cases rr <;> simp [corr_generate]

/-- C9 counterexample: a generator configured with `n_steps = 120`, after one
`generate` call with a rate-residual matrix of `5` steps, has `n_steps = 5`,
so the configured `n_steps` is not the same before and after the call. -/
theorem corr_generate_mutates_n_steps :
    (corr_generate ⟨[[1]], [[1]], ["short_rate"], 1, 2, 120, false⟩
        (some [[0, 0, 0, 0, 0]]) fun _ _ _ => 0).2.n_steps = 5 ∧
      (5 : ℕ) ≠ 120 :=
  ⟨rfl, by decide⟩

theorem replacement_loop_zero_sim (nNeeded : ℕ) (hi lo : ℚ)
    (replPath : ℕ → ℕ → ScenPath) (ma : ℕ) (hn : 0 < nNeeded) :
    ∀ fuel, (replacement_loop nNeeded 0 hi lo replPath ma fuel).1 = [] := by
  intro fuel
  induction fuel with
  | zero => simp [replacement_loop, replacement_attempt]
  | succ fuel ih =>
    simp only [replacement_loop, replacement_attempt, List.range_zero, List.map_nil,
      List.filter_nil, List.length_nil]
    rw [if_neg (by omega)]
    exact ih

theorem filter_all_good_one_short (N : ℕ) (paths : List ScenPath) (hi lo mr : ℚ)
    (replPath : ℕ → ℕ → ScenPath) (hmr : 0 < mr)
    (hgood : ∀ p ∈ paths, isExplosive hi lo p.2 = false)
    (hlen : paths.length + 1 = N) :
    (filter_explosive_scenarios N paths hi lo mr true replPath).1 = paths := by
  have hkept : (paths.filter fun p => !(isExplosive hi lo p.2)) = paths :=
    List.filter_eq_self.mpr fun a ha => by rw [hgood a ha]; rfl
  have hbad : (paths.filter fun p => isExplosive hi lo p.2) = [] :=
    List.filter_eq_nil_iff.mpr fun a ha => by rw [hgood a ha]; exact Bool.false_ne_true
  simp only [filter_explosive_scenarios, hkept, hbad, List.length_nil]
  cases paths with
  | nil =>
    rw [if_neg]
    · simp
    · rintro ⟨-, hne, -⟩
      exact hne rfl
  | cons q qs =>
    rw [if_pos]
    · have hrepl : (generate_replacement_scenarios (N - (q :: qs).length) hi lo true
          replPath).1 = [] := by
        have hone : N - (q :: qs).length = 1 := by omega
        rw [hone, generate_replacement_scenarios]
        exact replacement_loop_zero_sim 1 hi lo replPath 10 (by omega) 10
      rw [hrepl, List.append_nil, if_neg (by omega)]
    · refine ⟨by omega, by simp, ?_⟩
      rw [Nat.cast_zero, zero_div, zero_mul]
      exact hmr

/-- C10: for every odd `n_scenarios` with antithetic variates enabled,
`HullWhiteModel.generate_scenarios` simulates only `n_scenarios - 1` base
paths (the count is rounded down to even), and — because the replacement
generator also rounds its request of one scenario down to zero — when no
simulated path is explosive the returned `rt`/`Rt`/`deflators`/`residuals`
matrices all have `n_scenarios - 1` rows, with no error raised (the model is
a total function; the source only emits `warnings.warn`). -/
theorem odd_antithetic_row_counts (N : ℕ) (hodd : N % 2 = 1)
    (limHigh limLow maxRetries : ℚ) (hmr : 0 < maxRetries)
    (log1p expQ : ℚ → ℚ) (residualRow : List ℚ → List ℚ)
    (basePath : ℕ → ScenPath) (replPath : ℕ → ℕ → ScenPath)
    (hgood : ∀ s, s < N / 2 * 2 →
      isExplosive (log1p limHigh) (log1p limLow) (basePath s).2 = false) :
    (hw_generate_scenarios N true limHigh limLow maxRetries log1p expQ residualRow
        basePath replPath).rt.length = N - 1 ∧
      (hw_generate_scenarios N true limHigh limLow maxRetries log1p expQ residualRow
          basePath replPath).Rt.length = N - 1 ∧
      (hw_generate_scenarios N true limHigh limLow maxRetries log1p expQ residualRow
          basePath replPath).deflators.length = N - 1 ∧
      (hw_generate_scenarios N true limHigh limLow maxRetries log1p expQ residualRow
          basePath replPath).residuals.length = N - 1 := by
  have hpaths_good : ∀ p ∈ (List.range (N / 2 * 2)).map basePath,
      isExplosive (log1p limHigh) (log1p limLow) p.2 = false := by
    intro p hp
    obtain ⟨s, hs, rfl⟩ := List.mem_map.mp hp
    exact hgood s (List.mem_range.mp hs)
  have hlen : ((List.range (N / 2 * 2)).map basePath).length + 1 = N := by
    rw [List.length_map, List.length_range]
    omega
  have hfil := filter_all_good_one_short N _ (log1p limHigh) (log1p limLow) maxRetries
    replPath hmr hpaths_good hlen
  have hnum : ((List.range (N / 2 * 2)).map basePath).length = N - 1 := by
    rw [List.length_map, List.length_range]
    omega
  simp only [hw_generate_scenarios, if_pos, if_true, List.length_map]
  rw [hfil, hnum]
  exact ⟨rfl, rfl, rfl, rfl⟩

/-- C10 witness: three scenarios, antithetic mode, all-zero simulated paths
within the bounds. -/
theorem odd_antithetic_row_counts_witness :
    (3 : ℕ) % 2 = 1 ∧ (0 : ℚ) < 50 ∧
      (hw_generate_scenarios 3 true (1/10) (-(1/20)) 50 id id id (fun _ => ([0], [0]))
          (fun _ _ => ([0], [0]))).rt.length = 3 - 1 ∧
      (hw_generate_scenarios 3 true (1/10) (-(1/20)) 50 id id id (fun _ => ([0], [0]))
          (fun _ _ => ([0], [0]))).Rt.length = 3 - 1 ∧
      (hw_generate_scenarios 3 true (1/10) (-(1/20)) 50 id id id (fun _ => ([0], [0]))
          (fun _ _ => ([0], [0]))).deflators.length = 3 - 1 ∧
      (hw_generate_scenarios 3 true (1/10) (-(1/20)) 50 id id id (fun _ => ([0], [0]))
          (fun _ _ => ([0], [0]))).residuals.length = 3 - 1 := by
  refine ⟨by decide, by norm_num, ?_⟩
  exact odd_antithetic_row_counts 3 (by decide) (1/10) (-(1/20)) 50 (by norm_num)
    id id id (fun _ => ([0], [0])) (fun _ _ => ([0], [0]))
    (fun s _ => by norm_num [isExplosive])

end FinancYou
